import Mathlib

/-!
Verification of the installation orchestrator of the `web-roq-installer`
repository.  The TypeScript sources are shallowly embedded: strings are
Lean `String`s manipulated through their character lists, JavaScript
`Map`s become insertion-ordered association lists, asynchronous device
interaction becomes an explicit trace of device operations (each `await`
in the source sequences the next operation after the previous one), and
code that throws returns `Except`.
-/

namespace WebRoqInstaller

/-! ## Character-level string helpers (JS string primitives) -/

/-- Characters removed by JavaScript `String.prototype.trim`. -/
def isJsWhitespace (c : Char) : Bool :=
  c = ' ' || c = '\t' || c = '\n' || c = '\r' || c = '\x0b' || c = '\x0c'

/-- `s.trim()` on the character list. -/
def jsTrim (s : String) : String :=
  String.mk (((s.data.dropWhile isJsWhitespace).reverse.dropWhile isJsWhitespace).reverse)

/-- Does `needle` occur as a contiguous sublist of `hay`? -/
def listContainsSub (hay needle : List Char) : Bool :=
  if needle.isPrefixOf hay then true
  else
    match hay with
    | [] => false
    | _ :: t => listContainsSub t needle

/-- `a.includes(b)` : substring test. -/
def includesStr (s sub : String) : Bool :=
  listContainsSub s.data sub.data

/-- `a.endsWith(b)` : suffix test. -/
def endsWithStr (s suffix : String) : Bool :=
  suffix.data.isSuffixOf s.data

/-- `s.toLowerCase()` (ASCII range, which is all the sources compare). -/
def toLowerStr (s : String) : String :=
  String.mk (s.data.map Char.toLower)

/-- Split a character list at every occurrence of the separator. -/
def splitCharsOn (sep : Char) : List Char → List Char → List (List Char)
  | [], acc => [acc.reverse]
  | c :: rest, acc =>
      if c = sep then acc.reverse :: splitCharsOn sep rest []
      else splitCharsOn sep rest (c :: acc)

/-- `s.split(sep)` for a single-character separator. -/
def jsSplit (sep : Char) (s : String) : List String :=
  (splitCharsOn sep s.data []).map String.mk

/-- `text.split(/\r?\n/)` : split on `'\n'`, dropping a single `'\r'`
directly before each matched newline. -/
def splitLinesAux : List Char → List Char → List String
  | [], acc => [String.mk acc.reverse]
  | '\n' :: rest, acc =>
      String.mk ((acc.dropWhile (· = '\r') |>.reverse) ++ []) :: splitLinesAux rest []
  | c :: rest, acc => splitLinesAux rest (c :: acc)

/-- `text.split(/\r?\n/)`. -/
def splitLines (text : String) : List String :=
  splitLinesAux text.data []

/-- `p.replace(/\\/g, "/")`. -/
def slashNorm (s : String) : String :=
  String.mk (s.data.map fun c => if c = '\\' then '/' else c)

/-! ## Sanitization and the remote temp path (`main.ts` lines 110-112, 182) -/

/-- The character class `[a-zA-Z0-9._-]` of the sanitizing regex. -/
def isAllowedChar (c : Char) : Bool :=
  ('a' ≤ c && c ≤ 'z') || ('A' ≤ c && c ≤ 'Z') || ('0' ≤ c && c ≤ '9')
    || c = '.' || c = '_' || c = '-'

/-- `name.replace(/[^a-zA-Z0-9._-]/g, "_")`. -/
def sanitize (name : String) : String :=
  String.mk (name.data.map fun c => if isAllowedChar c then c else '_')

/-- Decimal digits of a natural number, most significant first; models the
stringification of `Date.now()` in a template literal. -/
def natDecChars (n : Nat) : List Char :=
  if h : n < 10 then [Char.ofNat (48 + n)]
  else natDecChars (n / 10) ++ [Char.ofNat (48 + n % 10)]
  decreasing_by exact Nat.div_lt_self (by omega) (by omega)

/-- Decimal rendering of a natural number. -/
def natDecStr (n : Nat) : String :=
  String.mk (natDecChars n)

/-- The remote destination path computed by `installApkFile`
(`/data/local/tmp/${Date.now()}_${sanitize(apkFile.name)}`). -/
def remoteApkPath (now : Nat) (name : String) : String :=
  "/data/local/tmp/" ++ natDecStr now ++ "_" ++ sanitize name

/-! ## Manifest parser (`main.ts` lines 211-261) -/

/-- Case-insensitive suffix test (`p.toLowerCase().endsWith(suffix)`). -/
def endsWithCI (p suffix : String) : Bool :=
  endsWithStr (toLowerStr p) suffix

/-- `normManifestPath` : `p.trim().replace(/^\.\/+/, "").replace(/^\/+/, "")`. -/
def normManifestPath (p : String) : String :=
  let t := (jsTrim p).data
  let t1 :=
    match t with
    | '.' :: '/' :: rest => rest.dropWhile (· = '/')
    | _ => t
  String.mk (t1.dropWhile (· = '/'))

/-- Parsed result of a release manifest (`ManifestInfo` in `main.ts`). -/
structure ManifestInfo where
  packageName : String
  versionCode : String
  apkPath : String
  obbPaths : List String
deriving DecidableEq, Repr

/-- The trimmed, non-empty lines the parser works over
(`text.split(/\r?\n/).map(l => l.trim()).filter(Boolean)`). -/
def manifestLines (text : String) : List String :=
  ((splitLines text).map jsTrim).filter (fun l => l ≠ "")

/-- Predicate locating the metadata header line. -/
def headerLinePred (l : String) : Bool :=
  includesStr l "Package Name" && includesStr l "Version Code" && includesStr l ";"

/-- Predicate locating the `#filelist` marker line. -/
def filelistPred (l : String) : Bool :=
  toLowerStr l = "#filelist"

/-- One iteration of the filelist loop: the normalized path of a
well-formed `f;path;...` entry, `none` when the line is skipped. -/
def fileEntryPath (l : String) : Option String :=
  if includesStr l ";" then
    let parts := jsSplit ';' l
    if parts.length < 3 then none
    else if parts.getD 0 "" ≠ "f" then none
    else some (normManifestPath (parts.getD 1 ""))
  else none

/-- The filelist loop: collect APK-suffixed and OBB-suffixed entry paths,
in line order. -/
def collectPaths : List String → List String × List String
  | [] => ([], [])
  | l :: rest =>
    let acc := collectPaths rest
    match fileEntryPath l with
    | none => acc
    | some p =>
      ((if endsWithCI p ".apk" then p :: acc.1 else acc.1),
       (if endsWithCI p ".obb" then p :: acc.2 else acc.2))

/-- `parseReleaseManifest` from `main.ts`; a thrown `Error` becomes
`.error` with the same message. -/
def parseReleaseManifest (text : String) : Except String ManifestInfo :=
  let lines := manifestLines text
  match lines.findIdx? headerLinePred with
  | none => .error "Manifest missing metadata header/row."
  | some headerIdx =>
    if headerIdx + 1 ≥ lines.length then .error "Manifest missing metadata header/row."
    else
      let header := jsSplit ';' (lines.getD headerIdx "")
      let row := jsSplit ';' (lines.getD (headerIdx + 1) "")
      match header.findIdx? (fun h => jsTrim h = "Package Name"),
            header.findIdx? (fun h => jsTrim h = "Version Code") with
      | none, _ => .error "Manifest missing Package Name / Version Code columns."
      | some _, none => .error "Manifest missing Package Name / Version Code columns."
      | some pkgCol, some verCol =>
        let packageName := jsTrim (row.getD pkgCol "")
        let versionCode := jsTrim (row.getD verCol "")
        if packageName = "" ∨ versionCode = "" then
          .error "Manifest has empty packageName/versionCode."
        else
          match lines.findIdx? filelistPred with
          | none => .error "Manifest missing #filelist section."
          | some filelistIdx =>
            let apkPaths := (collectPaths (lines.drop (filelistIdx + 1))).1
            let obbPaths := (collectPaths (lines.drop (filelistIdx + 1))).2
            match apkPaths, obbPaths with
            | [], _ => .error "Manifest filelist contains no APK."
            | _ :: _, [] => .error "Manifest filelist contains no OBB."
            | apkPath :: _, _ :: _ =>
              .ok { packageName, versionCode, apkPath, obbPaths }

/-! ## Progress reporter (`makePercentLogger`, `main.ts` lines 128-138) -/

/-- One invocation of the callback returned by `makePercentLogger`: `last`
is the captured mutable state (initially `-1`); the result is the new
state together with the emitted percentage, if any. -/
def percentStep (last : Int) (sent total : Nat) : Int × Option Nat :=
  if total ≤ 0 then (last, none)
  else
    let pct := 100 * sent / total
    if 100 ≤ pct ∨ last + 5 ≤ (pct : Int) then (pct, some pct) else (last, none)

/-- The percentages logged by a reporter started in state `last` over a
sequence of `(sent, total)` calls. -/
def runReporterFrom (last : Int) : List (Nat × Nat) → List Nat
  | [] => []
  | c :: rest =>
    match percentStep last c.1 c.2 with
    | (last', none) => runReporterFrom last' rest
    | (last', some p) => p :: runReporterFrom last' rest

/-- The reporter state after a sequence of calls. -/
def reporterState (last : Int) : List (Nat × Nat) → Int
  | [] => last
  | c :: rest => reporterState (percentStep last c.1 c.2).1 rest

/-- A fresh reporter (`makePercentLogger` sets `last = -1`). -/
def runPercentLogger (calls : List (Nat × Nat)) : List Nat :=
  runReporterFrom (-1) calls

/-! ## Release resolver (`part_002` lines 372-422, `fetchLatestRoqApk`) -/

/-- One release-feed asset; `none` fields model JSON values that are not
strings (`typeof asset?.name === "string"` checks in the source). -/
structure Asset where
  assetName : Option String
  browser_download_url : Option String
deriving DecidableEq, Repr

/-- The `assets.find(...)` predicate: a string name ending
case-insensitively in `.apk` together with a string download URL. -/
def isApkAsset (a : Asset) : Bool :=
  match a.assetName, a.browser_download_url with
  | some n, some _ => endsWithCI n ".apk"
  | _, _ => false

/-- One entry of the release feed.  The source never reads `draft` or
`prerelease`; they are carried here so that claims about them can be
stated. -/
structure Release where
  relName : Option String
  tag_name : Option String
  draft : Bool
  prerelease : Bool
  assets : List Asset
deriving DecidableEq, Repr

/-- Lines 399-409 of `part_002`: find the first APK asset of the chosen
release, or throw the no-asset error. -/
def selectApkAsset (r : Release) : Except String Asset :=
  match r.assets.find? isApkAsset with
  | some a => .ok a
  | none => .error "Latest release does not contain an APK asset."

/-- The release-selection logic of `fetchLatestRoqApk` (lines 378-409):
`latestResp` is the `/releases/latest` response (`.error status` for a
non-success HTTP status), `releasesResp` the `/releases` response fetched
on fallback.  Returns the chosen asset, which the source then downloads. -/
def fetchLatestRoqApkSelect (latestResp : Except Nat Release)
    (releasesResp : Except Nat (List Release)) : Except String Asset :=
  match latestResp with
  | .ok r => selectApkAsset r
  | .error _ =>
    match releasesResp with
    | .error s => .error ("Could not fetch releases from GitHub (" ++ natDecStr s ++ ").")
    | .ok [] => .error "No releases found for rookie-on-quest."
    | .ok (r :: _) => selectApkAsset r

/-- A release whose asset list has no APK. -/
def latestNoAsset : Release :=
  { relName := some "v2.0", tag_name := some "v2.0", draft := false,
    prerelease := false, assets := [] }

/-- An eligible stable release carrying an APK asset. -/
def eligibleStable : Release :=
  { relName := some "v1.9", tag_name := some "v1.9", draft := false,
    prerelease := false,
    assets := [{ assetName := some "roq.apk",
                 browser_download_url := some "https://example.org/roq.apk" }] }

/-- A draft release carrying an APK asset. -/
def draftWithApk : Release :=
  { relName := some "v2.1-draft", tag_name := some "v2.1", draft := true,
    prerelease := false,
    assets := [{ assetName := some "draft.apk",
                 browser_download_url := some "https://example.org/draft.apk" }] }

/-! ## Bundle file map and suffix resolution (`main.ts` lines 263-285) -/

/-- A browser `File` as the orchestrator sees it: display name, folder
relative path (`webkitRelativePath`, `""` when absent), size, text. -/
structure BFile where
  name : String
  relPath : String
  size : Nat
  text : String
deriving DecidableEq, Repr

/-- `map.get(k)` on an insertion-ordered association list. -/
def mapGet (m : List (String × BFile)) (k : String) : Option BFile :=
  (m.find? (fun p => p.1 = k)).map (·.2)

/-- `map.set(k, v)`: update in place when the key exists (keeping its
insertion position), otherwise append. -/
def mapSet (m : List (String × BFile)) (k : String) (v : BFile) : List (String × BFile) :=
  if m.any (fun p => p.1 = k) then
    m.map (fun p => if p.1 = k then (k, v) else p)
  else m ++ [(k, v)]

/-- `stripTopFolder`: drop everything up to and including the first `/`. -/
def stripTopFolder (rel : String) : String :=
  if rel.data.contains '/' then
    String.mk ((rel.data.dropWhile (· ≠ '/')).drop 1)
  else rel

/-- `basename`: last `/`-separated segment of the slash-normalized path,
or the whole path when that segment is empty. -/
def basename (p : String) : String :=
  let parts := jsSplit '/' (slashNorm p)
  let lastPart := parts.getLast?.getD ""
  if lastPart = "" then p else lastPart

/-- `buildBundleFileMap`. -/
def buildBundleFileMap (files : List BFile) : List (String × BFile) :=
  files.foldl (fun m f =>
    let rel := if f.relPath ≠ "" then f.relPath else f.name
    mapSet m (stripTopFolder rel) f) []

/-- `findFileByPathOrSuffix`: exact key lookup first, then the first key
whose slash-normalized form ends with the slash-normalized manifest
path. -/
def findFileByPathOrSuffix (m : List (String × BFile)) (manifestPath : String) :
    Option BFile :=
  match mapGet m manifestPath with
  | some f => some f
  | none =>
    match m.find? (fun p => endsWithStr (slashNorm p.1) (slashNorm manifestPath)) with
    | some p => some p.2
    | none => none

/-- A file stored under the key `x/a/b.apk`. -/
def fileA : BFile := { name := "b.apk", relPath := "x/a/b.apk", size := 10, text := "" }

/-- A file stored under the key `a/b.apk`. -/
def fileB : BFile := { name := "b2.apk", relPath := "a/b.apk", size := 5, text := "" }

/-! ## Device session slot (`adbService.ts` / `part_000` lines 37-61) -/

/-- Actions the ADB service performs on sessions, identified by number. -/
inductive AdbAction where
  | connectDev (id : Nat)
  | authenticate (id : Nat)
  | close (id : Nat)
deriving DecidableEq, Repr

/-- The module-level session slot (`currentAdb`). -/
structure AdbServiceState where
  currentAdb : Option Nat
deriving DecidableEq, Repr

/-- The success path of `connectToDevice`: connect and authenticate the
new device, then overwrite the slot.  No action touches the previous
session. -/
def connectToDevice (_s : AdbServiceState) (newId : Nat) :
    AdbServiceState × List AdbAction :=
  ({ currentAdb := some newId }, [AdbAction.connectDev newId, AdbAction.authenticate newId])

/-- `disconnect`: clear the slot, then best-effort close the session that
was held (close failures swallowed). -/
def disconnect (s : AdbServiceState) : AdbServiceState × List AdbAction :=
  ({ currentAdb := none },
   match s.currentAdb with
   | some a => [AdbAction.close a]
   | none => [])

/-! ## Install orchestration as a device-operation trace
(`main.ts` lines 177-199 `installApkFile`, 287-333 `installBundle`).
Each operation is awaited before the next begins, so a run is the ordered
list of device operations issued, stopping at the first failure. -/

/-- A device-side operation issued by the orchestrator. -/
inductive DeviceOp where
  | push (remotePath : String) (file : BFile)
  | shell (argv : List String)
deriving DecidableEq, Repr

/-- Behaviour of the device session: the result of each push and each
shell command. -/
structure Device where
  pushRes : String → BFile → Except String Unit
  shellRes : List String → Except String String

/-- `installApkFile`: push, `pm install -r`, `rm -f`, in that order, each
awaited; `conn` models `connected && getCurrentAdb()`.  Returns the trace
of issued operations and the outcome (the success-token scan on the `pm`
output only affects logging). -/
def installApkFile (conn : Bool) (d : Device) (now : Nat) (apk : BFile) :
    List DeviceOp × Except String Unit :=
  if conn then
    let remoteApk := remoteApkPath now apk.name
    match d.pushRes remoteApk apk with
    | .error e => ([DeviceOp.push remoteApk apk], .error e)
    | .ok _ =>
      match d.shellRes ["pm", "install", "-r", remoteApk] with
      | .error e =>
          ([DeviceOp.push remoteApk apk,
            DeviceOp.shell ["pm", "install", "-r", remoteApk]], .error e)
      | .ok _out =>
        match d.shellRes ["rm", "-f", remoteApk] with
        | .error e =>
            ([DeviceOp.push remoteApk apk,
              DeviceOp.shell ["pm", "install", "-r", remoteApk],
              DeviceOp.shell ["rm", "-f", remoteApk]], .error e)
        | .ok _ =>
            ([DeviceOp.push remoteApk apk,
              DeviceOp.shell ["pm", "install", "-r", remoteApk],
              DeviceOp.shell ["rm", "-f", remoteApk]], .ok ())
  else ([], .error "No device connected. Click Connect first.")

/-- The complete operation sequence of one successful APK install attempt. -/
def apkOps (now : Nat) (apk : BFile) : List DeviceOp :=
  [DeviceOp.push (remoteApkPath now apk.name) apk,
   DeviceOp.shell ["pm", "install", "-r", remoteApkPath now apk.name],
   DeviceOp.shell ["rm", "-f", remoteApkPath now apk.name]]

/-- Locating `release.manifest` in the bundle map (lines 292-294). -/
def findManifestFile (m : List (String × BFile)) : Option BFile :=
  match mapGet m "release.manifest" with
  | some f => some f
  | none =>
    (m.find? (fun p =>
        endsWithStr p.1 "/release.manifest" || endsWithStr p.1 "release.manifest")).map
      (fun p => p.2)

/-- The OBB resolution loop (lines 310-315), in manifest order. -/
def resolveObbFiles (m : List (String × BFile)) :
    List String → Except String (List (String × BFile))
  | [] => .ok []
  | p :: rest =>
    match findFileByPathOrSuffix m p with
    | none => .error ("Could not locate OBB from manifest: " ++ p)
    | some f =>
      match resolveObbFiles m rest with
      | .error e => .error e
      | .ok obbs => .ok ((p, f) :: obbs)

/-- The pure preparation phase of `installBundle` (lines 290-315): build
the file map, locate and parse the manifest, resolve the APK and every
OBB path. -/
def resolveBundle (files : List BFile) :
    Except String (ManifestInfo × BFile × List (String × BFile)) :=
  let m := buildBundleFileMap files
  match findManifestFile m with
  | none => .error "Bundle folder missing release.manifest"
  | some mf =>
    match parseReleaseManifest mf.text with
    | .error e => .error e
    | .ok info =>
      match findFileByPathOrSuffix m info.apkPath with
      | none => .error ("Could not locate APK file from manifest: " ++ info.apkPath)
      | some apkFile =>
        match resolveObbFiles m info.obbPaths with
        | .error e => .error e
        | .ok obbs => .ok (info, apkFile, obbs)

/-- The push operation for one resolved OBB entry (line 325-329). -/
def obbPushOp (obbDir : String) (pf : String × BFile) : DeviceOp :=
  DeviceOp.push (obbDir ++ "/" ++ basename pf.1) pf.2

/-- The OBB push loop: one push at a time, in resolved (manifest) order. -/
def pushObbs (d : Device) (obbDir : String) :
    List (String × BFile) → List DeviceOp × Except String Unit
  | [] => ([], .ok ())
  | pf :: rest =>
    match d.pushRes (obbDir ++ "/" ++ basename pf.1) pf.2 with
    | .error e => ([obbPushOp obbDir pf], .error e)
    | .ok _ =>
      let r := pushObbs d obbDir rest
      (obbPushOp obbDir pf :: r.1, r.2)

/-- `installBundle`: preparation, then the APK sub-flow, then `mkdir -p`
of the OBB directory, then the OBB pushes. -/
def installBundle (conn : Bool) (d : Device) (now : Nat) (files : List BFile) :
    List DeviceOp × Except String Unit :=
  if conn then
    match resolveBundle files with
    | .error e => ([], .error e)
    | .ok (info, apkFile, obbs) =>
      let r1 := installApkFile conn d now apkFile
      match r1.2 with
      | .error e => (r1.1, .error e)
      | .ok _ =>
        let obbDir := "/sdcard/Android/obb/" ++ info.packageName
        match d.shellRes ["mkdir", "-p", obbDir] with
        | .error e => (r1.1 ++ [DeviceOp.shell ["mkdir", "-p", obbDir]], .error e)
        | .ok _ =>
          let r2 := pushObbs d obbDir obbs
          (r1.1 ++ DeviceOp.shell ["mkdir", "-p", obbDir] :: r2.1, r2.2)
  else ([], .error "No device connected. Click Connect first.")

/-- A device on which every operation succeeds. -/
def dOk : Device :=
  { pushRes := fun _ _ => .ok (), shellRes := fun _ => .ok "Success" }

/-- A device whose `pm install` command throws. -/
def dInstallFails : Device :=
  { pushRes := fun _ _ => .ok (),
    shellRes := fun argv =>
      if argv.getD 0 "" = "pm" then .error "adb: device offline" else .ok "" }

/-- Bundle witness: the manifest file of a `MyGame/` selection. -/
def wManifest : BFile :=
  { name := "release.manifest", relPath := "MyGame/release.manifest", size := 90,
    text := "Package Name;Version Code\ncom.example.app;42\n#filelist\nf;game.apk;...\nf;main.1.obb;..." }

/-- Bundle witness: the APK file. -/
def wApk : BFile :=
  { name := "game.apk", relPath := "MyGame/game.apk", size := 3, text := "" }

/-- Bundle witness: the OBB file. -/
def wObb : BFile :=
  { name := "main.1.obb", relPath := "MyGame/main.1.obb", size := 4, text := "" }

/-- Bundle witness: the selected folder contents. -/
def wFiles : List BFile := [wManifest, wApk, wObb]

/-- A plain APK file with no folder path. -/
def wApk0 : BFile := { name := "a.apk", relPath := "", size := 1, text := "" }

end WebRoqInstaller

deriving instance DecidableEq for Except

namespace WebRoqInstaller

lemma isAllowedChar_digit {d : Nat} (h : d < 10) :
    isAllowedChar (Char.ofNat (48 + d)) = true := by
  interval_cases d <;> decide

lemma natDecChars_allowed (n : Nat) :
    ∀ c ∈ natDecChars n, isAllowedChar c = true := by
  induction n using Nat.strong_induction_on with
  | _ n ih =>
    intro c hc
    rw [natDecChars] at hc
    split at hc
    · next h =>
      simp only [List.mem_singleton] at hc
      exact hc ▸ isAllowedChar_digit h
    · next h =>
      rcases List.mem_append.mp hc with h1 | h2
      · exact ih (n / 10) (Nat.div_lt_self (by omega) (by omega)) c h1
      · simp only [List.mem_singleton] at h2
        exact h2 ▸ isAllowedChar_digit (Nat.mod_lt _ (by omega))

lemma sanitize_data (name : String) :
    (sanitize name).data = name.data.map fun c => if isAllowedChar c then c else '_' := rfl

lemma collectPaths_apk_ends (ls : List String) :
    ∀ p ∈ (collectPaths ls).1, endsWithCI p ".apk" = true := by
  induction ls with
  | nil => intro p hp; simp [collectPaths] at hp
  | cons l rest ih =>
    intro p hp
    simp only [collectPaths] at hp
    cases hfe : fileEntryPath l with
    | none => rw [hfe] at hp; exact ih p hp
    | some q =>
      rw [hfe] at hp
      by_cases hq : endsWithCI q ".apk" = true
      · simp only [hq, if_true] at hp
        rcases List.mem_cons.mp hp with rfl | hp'
        · exact hq
        · exact ih p hp'
      · simp only [Bool.not_eq_true] at hq
        simp only [hq, Bool.false_eq_true, if_false] at hp
        exact ih p hp

lemma runReporterFrom_append (last : Int) (l1 l2 : List (Nat × Nat)) :
    runReporterFrom last (l1 ++ l2) =
      runReporterFrom last l1 ++ runReporterFrom (reporterState last l1) l2 := by
  induction l1 generalizing last with
  | nil => rfl
  | cons c rest ih =>
    simp only [List.cons_append, runReporterFrom, reporterState]
    rcases hs : percentStep last c.1 c.2 with ⟨last', emitted⟩
    cases emitted <;> simp [runReporterFrom, ih last', hs, reporterState]

lemma pct_lt_100 {sent total : Nat} (ht : 0 < total) (h : sent < total) :
    100 * sent / total < 100 := by
  rw [Nat.div_lt_iff_lt_mul ht]
  omega

lemma percentStep_at_total {st : Int} {total : Nat} (ht : 0 < total) :
    percentStep st total total = (100, some 100) := by
  have h100 : 100 * total / total = 100 := by
    rw [Nat.mul_div_assoc _ (dvd_refl total), Nat.div_self ht, mul_one]
  simp [percentStep, Nat.not_le.mpr ht, h100]

/-- Emissions of a run whose calls all stay strictly below `total`: every
emitted percentage is `< 100`, the first is at least `last + 5`, and
consecutive emissions are at least 5 points apart. -/
lemma runReporterFrom_below (total : Nat) (ht : 0 < total) :
    ∀ (sents : List Nat) (last : Int), (∀ s ∈ sents, s < total) →
      (∀ p ∈ runReporterFrom last (sents.map (fun s => (s, total))), p < 100)
      ∧ (∀ p, (runReporterFrom last (sents.map (fun s => (s, total)))).head? = some p →
          last + 5 ≤ (p : Int))
      ∧ (runReporterFrom last (sents.map (fun s => (s, total)))).Chain'
          (fun p q => p + 5 ≤ q) := by
  intro sents
  induction sents with
  | nil => intro last _; refine ⟨by simp [runReporterFrom], by simp [runReporterFrom], by simp [runReporterFrom]⟩
  | cons s rest ih =>
    intro last hlt
    have hs : s < total := hlt s (List.mem_cons_self _ _)
    have hrest : ∀ x ∈ rest, x < total := fun x hx => hlt x (List.mem_cons_of_mem _ hx)
    have hpct : 100 * s / total < 100 := pct_lt_100 ht hs
    simp only [List.map_cons, runReporterFrom]
    by_cases hcond : 100 ≤ 100 * s / total ∨ last + 5 ≤ ((100 * s / total : Nat) : Int)
    · have hstep : percentStep last s total =
          (((100 * s / total : Nat) : Int), some (100 * s / total)) := by
        unfold percentStep
        rw [if_neg (Nat.not_le.mpr ht)]
        dsimp only
        rw [if_pos hcond]
      rw [hstep]
      obtain ⟨ih1, ih2, ih3⟩ := ih (100 * s / total) hrest
      refine ⟨?_, ?_, ?_⟩
      · intro p hp
        rcases List.mem_cons.mp hp with rfl | hp'
        · exact hpct
        · exact ih1 p hp'
      · intro p hp
        simp only [List.head?_cons, Option.some_inj] at hp
        subst hp
        rcases hcond with h1 | h1
        · omega
        · exact h1
      · refine List.chain'_cons'.mpr ⟨?_, ih3⟩
        intro q hq
        have h5 := ih2 q hq
        exact_mod_cast h5
    · have hstep : percentStep last s total = (last, none) := by
        unfold percentStep
        rw [if_neg (Nat.not_le.mpr ht)]
        dsimp only
        rw [if_neg hcond]
      rw [hstep]
      exact ih last hrest

lemma runPercentLogger_main (total : Nat) (ht : 0 < total) (init : List Nat)
    (hlt : ∀ s ∈ init, s < total) :
    ((runPercentLogger ((init ++ [total]).map (fun s => (s, total)))).filter
        (fun p => 100 ≤ p)).length = 1
    ∧ ((runPercentLogger ((init ++ [total]).map (fun s => (s, total)))).map
        (fun p => p / 5)).Nodup := by
  obtain ⟨hb1, hb2, hb3⟩ := runReporterFrom_below total ht init (-1) hlt
  have hfin : runPercentLogger ((init ++ [total]).map (fun s => (s, total))) =
      runReporterFrom (-1) (init.map (fun s => (s, total))) ++ [100] := by
    rw [runPercentLogger, List.map_append, runReporterFrom_append]
    congr 1
    simp [runReporterFrom, percentStep_at_total ht]
  rw [hfin]
  constructor
  · rw [List.filter_append]
    have h1 : (runReporterFrom (-1) (init.map (fun s => (s, total)))).filter
        (fun p => 100 ≤ p) = [] := by
      apply List.filter_eq_nil_iff.mpr
      intro p hp
      simp only [decide_eq_true_eq]
      exact Nat.not_le.mpr (hb1 p hp)
    rw [h1]
    simp
  · rw [List.map_append]
    simp only [List.map_cons, List.map_nil]
    have hchain : ((runReporterFrom (-1) (init.map (fun s => (s, total)))).map
        (fun p => p / 5) ++ [100 / 5]).Chain' (· < ·) := by
      rw [List.chain'_append]
      refine ⟨?_, List.chain'_singleton _, ?_⟩
      · rw [List.chain'_map]
        refine hb3.imp ?_
        intro p q hpq
        have h1 : (p + 5) / 5 ≤ q / 5 := Nat.div_le_div_right hpq
        rw [Nat.add_div_right p (by norm_num)] at h1
        omega
      · intro x hx y hy
        simp only [List.head?_cons, Option.mem_def, Option.some_inj] at hy
        subst hy
        rcases List.mem_getLast?_eq_getLast hx with ⟨hne', hxeq⟩
        have hxmem : x ∈ (runReporterFrom (-1) (init.map (fun s => (s, total)))).map
            (fun p => p / 5) := by rw [hxeq]; exact List.getLast_mem hne'
        rcases List.mem_map.mp hxmem with ⟨p, hpmem, rfl⟩
        have hplt : p < 100 := hb1 p hpmem
        omega
    have hpw := (List.chain'_iff_pairwise).mp hchain
    exact hpw.imp (fun h => Nat.ne_of_lt h)

/-- C7: a reporter call with `total = 0` emits nothing and leaves the
state unchanged; a call emits a percentage only when
`floor(100 * sent / total)` reaches 100 or is at least 5 points above the
stored percentage of the last emission; and over a strictly increasing
sent sequence, bounded by `total` and reaching `total`, exactly one line
is emitted at `≥ 100` and at most one line per 5-point band. -/
theorem makePercentLogger_spec :
    (∀ (last : Int) (sent : Nat), percentStep last sent 0 = (last, none))
    ∧ (∀ (last : Int) (sent total p : Nat),
        (percentStep last sent total).2 = some p →
          p = 100 * sent / total ∧ (100 ≤ p ∨ last + 5 ≤ (p : Int)))
    ∧ (∀ (total : Nat) (sents : List Nat), 0 < total →
        sents.Chain' (· < ·) → (∀ s ∈ sents, s ≤ total) →
        sents.getLast? = some total →
        ((runPercentLogger (sents.map (fun s => (s, total)))).filter
            (fun p => 100 ≤ p)).length = 1
        ∧ ((runPercentLogger (sents.map (fun s => (s, total)))).map
            (fun p => p / 5)).Nodup) := by
  refine ⟨?_, ?_, ?_⟩
  · intro last sent
    rfl
  · intro last sent total p h
    unfold percentStep at h
    split at h
    · simp at h
    · dsimp only at h
      split at h
      · next hcond =>
        injection h with h'
        subst h'
        exact ⟨rfl, hcond⟩
      · simp at h
  · intro total sents ht hchain hle hlast
    have hne : sents ≠ [] := by intro h; rw [h] at hlast; cases hlast
    have hdecomp : sents = sents.dropLast ++ [total] := by
      have h1 := List.dropLast_append_getLast hne
      rw [List.getLast?_eq_getLast_of_ne_nil hne] at hlast
      injection hlast with h2
      rw [h2] at h1
      exact h1.symm
    have hinitlt : ∀ s ∈ sents.dropLast, s < total := by
      have hp : sents.Pairwise (· < ·) := (List.chain'_iff_pairwise).mp hchain
      rw [hdecomp] at hp
      have h2 := List.pairwise_append.mp hp
      intro s hs
      exact h2.2.2 s hs total (List.mem_singleton_self _)
    rw [hdecomp]
    exact runPercentLogger_main total ht sents.dropLast hinitlt

/-- Witness for C7: over the call sequence `sent = 3` then `sent = 10`
with `total = 10`, the reporter emits one line at `≥ 100%` and never two
lines in one 5-point band. -/
theorem makePercentLogger_spec_witness :
    (0 : Nat) < 10 ∧
      (((runPercentLogger ([3, 10].map (fun s => (s, 10)))).filter
          (fun p => 100 ≤ p)).length = 1
        ∧ ((runPercentLogger ([3, 10].map (fun s => (s, 10)))).map
          (fun p => p / 5)).Nodup) :=
  ⟨by decide, makePercentLogger_spec.2.2 10 [3, 10] (by decide)
    (List.chain'_pair.mpr (by decide)) (by decide) (by decide)⟩

/-- C6: the remote destination path is
`/data/local/tmp/{timestamp}_{sanitize(name)}`; sanitization maps every
character outside `[A-Za-z0-9._-]` to `'_'` and leaves characters inside
the class unchanged, so the filename segment
`{timestamp}_{sanitize(name)}` contains only characters of that class;
in particular `"My App v1.0 (final)!.apk"` sanitizes to
`"My_App_v1.0__final__.apk"`. -/
theorem remoteApkPath_sanitized (now : Nat) (name : String) :
    remoteApkPath now name = "/data/local/tmp/" ++ natDecStr now ++ "_" ++ sanitize name
    ∧ (sanitize name).data = name.data.map (fun c => if isAllowedChar c then c else '_')
    ∧ (natDecStr now ++ "_" ++ sanitize name).data.all isAllowedChar = true
    ∧ sanitize "My App v1.0 (final)!.apk" = "My_App_v1.0__final__.apk" := by
  refine ⟨rfl, rfl, ?_, by decide⟩
  have hdata : (natDecStr now ++ "_" ++ sanitize name).data =
      (natDecChars now ++ ['_']) ++ name.data.map (fun c => if isAllowedChar c then c else '_') := rfl
  rw [hdata, List.all_append, List.all_append]
  simp only [Bool.and_eq_true, List.all_eq_true]
  refine ⟨⟨fun c hc => natDecChars_allowed now c hc, by decide⟩, ?_⟩
  intro c hc
  rcases List.mem_map.mp hc with ⟨c', _, rfl⟩
  by_cases h : isAllowedChar c' = true
  · simp [h]
  · simp only [Bool.not_eq_true] at h
    simp only [h, Bool.false_eq_true, if_false]
    decide


/-- C3: for every input text, `parseReleaseManifest` either returns a fully
populated `ManifestInfo` (non-empty `packageName` and `versionCode`, a
primary package path ending case-insensitively in `.apk`, a non-empty list
of auxiliary `.obb` paths) or fails with a manifest-format error; and
inputs missing the metadata header/row, missing the `#filelist` marker, or
yielding zero package-file or zero auxiliary-file entries always fail.  A
partially populated `ManifestInfo` is never returned. -/
theorem parseReleaseManifest_full_or_error (text : String) :
    ((∃ msg, parseReleaseManifest text = .error msg) ∨
      (∃ info, parseReleaseManifest text = .ok info ∧
        info.packageName ≠ "" ∧ info.versionCode ≠ "" ∧
        endsWithCI info.apkPath ".apk" = true ∧ info.obbPaths ≠ []))
    ∧ ((manifestLines text).findIdx? headerLinePred = none →
        ∃ msg, parseReleaseManifest text = .error msg)
    ∧ ((manifestLines text).findIdx? filelistPred = none →
        ∃ msg, parseReleaseManifest text = .error msg)
    ∧ (∀ i, (manifestLines text).findIdx? filelistPred = some i →
        ((collectPaths ((manifestLines text).drop (i + 1))).1 = [] ∨
          (collectPaths ((manifestLines text).drop (i + 1))).2 = []) →
        ∃ msg, parseReleaseManifest text = .error msg) := by
  refine ⟨?_, ?_, ?_, ?_⟩
  · cases h : parseReleaseManifest text with
    | error msg => exact Or.inl ⟨msg, rfl⟩
    | ok info =>
      refine Or.inr ⟨info, rfl, ?_⟩
      unfold parseReleaseManifest at h
      dsimp only at h
      split at h
      · cases h
      · split at h
        · cases h
        · split at h
          · cases h
          · cases h
          · split at h
            · cases h
            · next hne =>
              split at h
              · cases h
              · next filelistIdx hfl =>
                split at h
                · cases h
                · cases h
                · next apkPath tail hd tl heqa heqb =>
                  injection h with h'
                  subst h'
                  push_neg at hne
                  refine ⟨hne.1, hne.2, ?_, by simp [heqb]⟩
                  exact collectPaths_apk_ends _ apkPath
                    (by rw [heqa]; exact List.mem_cons_self _ _)
  · intro h0
    unfold parseReleaseManifest
    dsimp only
    rw [h0]
    exact ⟨_, rfl⟩
  · intro h0
    unfold parseReleaseManifest
    dsimp only
    split
    · exact ⟨_, rfl⟩
    · split
      · exact ⟨_, rfl⟩
      · split
        · exact ⟨_, rfl⟩
        · exact ⟨_, rfl⟩
        · split
          · exact ⟨_, rfl⟩
          · rw [h0]
            exact ⟨_, rfl⟩
  · intro i hi hemp
    unfold parseReleaseManifest
    dsimp only
    split
    · exact ⟨_, rfl⟩
    · split
      · exact ⟨_, rfl⟩
      · split
        · exact ⟨_, rfl⟩
        · exact ⟨_, rfl⟩
        · split
          · exact ⟨_, rfl⟩
          · split
            · exact ⟨_, rfl⟩
            · next filelistIdx hfl =>
              rw [hi] at hfl
              injection hfl with hfl'
              subst hfl'
              split
              · exact ⟨_, rfl⟩
              · exact ⟨_, rfl⟩
              · next apkPath tail hd tl heqa heqb =>
                rcases hemp with he | he
                · rw [he] at heqa; cases heqa
                · rw [he] at heqb; cases heqb

/-- Witness for C3: the empty input has no metadata header line and the
parser rejects it. -/
theorem parseReleaseManifest_full_or_error_witness :
    (manifestLines "").findIdx? headerLinePred = none ∧
      (∃ msg, parseReleaseManifest "" = .error msg) :=
  ⟨by decide, (parseReleaseManifest_full_or_error "").2.1 (by decide)⟩

/-- C4: the concrete manifest consisting of the header
`Package Name;Version Code`, the row `com.example.app;42`, the marker
`#filelist`, and the file lines `f;game.apk;...` and `f;main.1.obb;...`
parses to exactly
`{packageName := "com.example.app", versionCode := "42", apkPath := "game.apk", obbPaths := ["main.1.obb"]}`. -/
theorem parseReleaseManifest_scenario1 :
    parseReleaseManifest
        "Package Name;Version Code\ncom.example.app;42\n#filelist\nf;game.apk;...\nf;main.1.obb;..." =
      .ok { packageName := "com.example.app", versionCode := "42",
            apkPath := "game.apk", obbPaths := ["main.1.obb"] } := by
  decide

/-- Counterexample to C1: the `latest` endpoint succeeds but its release
has no installable asset, while the full list holds an eligible release;
resolution fails with the no-asset error instead of falling through to
the full list.  Likewise a draft `latest` release is not rejected: its
asset is selected. -/
theorem fetchLatest_no_fallthrough_counterexample :
    fetchLatestRoqApkSelect (.ok latestNoAsset) (.ok [eligibleStable]) =
      .error "Latest release does not contain an APK asset."
    ∧ fetchLatestRoqApkSelect (.ok draftWithApk) (.ok [eligibleStable]) =
      .ok { assetName := some "draft.apk",
            browser_download_url := some "https://example.org/draft.apk" }
    ∧ draftWithApk.draft = true ∧ latestNoAsset.draft = false := by
  decide

/-- C1 (amended): when the `latest` endpoint responds with success, its
release is used directly regardless of draft status — its first APK asset
is selected when present, and resolution fails with the no-asset error
(without consulting the full release list) when absent. -/
theorem fetchLatest_success_uses_latest (r : Release)
    (resp : Except Nat (List Release)) :
    (∀ a, r.assets.find? isApkAsset = some a →
        fetchLatestRoqApkSelect (.ok r) resp = .ok a)
    ∧ (r.assets.find? isApkAsset = none →
        fetchLatestRoqApkSelect (.ok r) resp =
          .error "Latest release does not contain an APK asset.") := by
  constructor
  · intro a ha
    simp [fetchLatestRoqApkSelect, selectApkAsset, ha]
  · intro ha
    simp [fetchLatestRoqApkSelect, selectApkAsset, ha]

/-- Witness for amended C1: a draft release returned by a successful
`latest` call has its APK asset selected directly. -/
theorem fetchLatest_success_uses_latest_witness :
    draftWithApk.assets.find? isApkAsset =
      some { assetName := some "draft.apk",
             browser_download_url := some "https://example.org/draft.apk" }
    ∧ fetchLatestRoqApkSelect (.ok draftWithApk) (.ok []) =
      .ok { assetName := some "draft.apk",
            browser_download_url := some "https://example.org/draft.apk" } :=
  ⟨by decide, (fetchLatest_success_uses_latest draftWithApk (.ok [])).1 _ (by decide)⟩

/-- Counterexample to C2: selecting from the full list, the resolver
takes the first entry even though it is a draft and an eligible stable
release follows. -/
theorem fullList_picks_first_counterexample :
    fetchLatestRoqApkSelect (.error 404) (.ok [draftWithApk, eligibleStable]) =
      .ok { assetName := some "draft.apk",
            browser_download_url := some "https://example.org/draft.apk" }
    ∧ draftWithApk.draft = true ∧ eligibleStable.draft = false := by
  decide

/-- C2 (amended): when resolution reaches the full release list it takes
the first entry of the feed unconditionally — no draft filtering and no
prerelease preference — selecting that entry's first APK asset (or
failing on it); an empty list and a failed list fetch produce the
corresponding errors. -/
theorem fullList_unfiltered_first (s s2 : Nat) (r : Release) (rest : List Release) :
    fetchLatestRoqApkSelect (.error s) (.ok (r :: rest)) = selectApkAsset r
    ∧ fetchLatestRoqApkSelect (.error s) (.ok []) =
        .error "No releases found for rookie-on-quest."
    ∧ fetchLatestRoqApkSelect (.error s) (.error s2) =
        .error ("Could not fetch releases from GitHub (" ++ natDecStr s2 ++ ").") :=
  ⟨rfl, rfl, rfl⟩

/-- Counterexample to C5: for the manifest path `a\b.apk` (a backslash
path) no exact key exists and no key's slash-normalized form ends with
the manifest path as written, yet a file is returned — the code compares
against the slash-normalization of the manifest path, not the raw path. -/
theorem findFile_suffix_counterexample :
    mapGet [("x/a/b.apk", fileA)] "a\\b.apk" = none
    ∧ [("x/a/b.apk", fileA)].find?
        (fun p => endsWithStr (slashNorm p.1) "a\\b.apk") = none
    ∧ findFileByPathOrSuffix [("x/a/b.apk", fileA)] "a\\b.apk" = some fileA := by
  decide

/-- C5 (amended): an exact key match is always preferred, and otherwise
the result is the first key whose slash-normalized form ends with the
slash-normalized manifest path (`none` when no such key exists). -/
theorem findFileByPathOrSuffix_spec (m : List (String × BFile)) (path : String) :
    (∀ f, mapGet m path = some f → findFileByPathOrSuffix m path = some f)
    ∧ (mapGet m path = none →
        findFileByPathOrSuffix m path =
          (m.find? (fun p => endsWithStr (slashNorm p.1) (slashNorm path))).map
            (fun p => p.2)) := by
  constructor
  · intro f hf
    simp [findFileByPathOrSuffix, hf]
  · intro hf
    simp only [findFileByPathOrSuffix, hf]
    rcases h : m.find? (fun p => endsWithStr (slashNorm p.1) (slashNorm path)) with _ | p
    · rw [h]; rfl
    · rw [h]; rfl

/-- Witness for C5 (amended): with both an exact key and a distinct
suffix-matching key present, the exact-key file is returned. -/
theorem findFileByPathOrSuffix_spec_witness :
    mapGet [("a/b.apk", fileB), ("x/a/b.apk", fileA)] "a/b.apk" = some fileB
    ∧ findFileByPathOrSuffix [("a/b.apk", fileB), ("x/a/b.apk", fileA)] "a/b.apk" =
        some fileB :=
  ⟨by decide, (findFileByPathOrSuffix_spec _ "a/b.apk").1 fileB (by decide)⟩

/-- Counterexample to C9: connecting while session 0 is live emits no
`close` for session 0 — the prior session is silently abandoned, not
released. -/
theorem connect_abandons_session_counterexample :
    (connectToDevice { currentAdb := some 0 } 1).1.currentAdb = some 1
    ∧ AdbAction.close 0 ∉ (connectToDevice { currentAdb := some 0 } 1).2 := by
  decide

/-- C9 (amended): `connectToDevice` never releases the prior session — it
emits no `close` action and simply overwrites the single session slot;
the prior session's resources are released only by an explicit
`disconnect`, which best-effort closes the held session. -/
theorem connectToDevice_no_release (s : AdbServiceState) (newId : Nat) :
    (connectToDevice s newId).1.currentAdb = some newId
    ∧ (∀ a, AdbAction.close a ∉ (connectToDevice s newId).2)
    ∧ (∀ old, s.currentAdb = some old →
        (disconnect s).2 = [AdbAction.close old]) := by
  refine ⟨rfl, ?_, ?_⟩
  · intro a ha
    simp [connectToDevice] at ha
  · intro old hold
    simp [disconnect, hold]

/-- Witness for C9 (amended): with session 7 live, a connect to device 3
closes nothing, while `disconnect` closes session 7. -/
theorem connectToDevice_no_release_witness :
    (disconnect { currentAdb := some 7 }).2 = [AdbAction.close 7]
    ∧ (connectToDevice { currentAdb := some 7 } 3).1.currentAdb = some 3 :=
  ⟨(connectToDevice_no_release { currentAdb := some 7 } 3).2.2 7 rfl,
   (connectToDevice_no_release { currentAdb := some 7 } 3).1⟩

lemma installApkFile_trace_prefix (d : Device) (now : Nat) (f : BFile) :
    (installApkFile true d now f).1 <+: apkOps now f := by
  unfold installApkFile apkOps
  rw [if_pos rfl]
  dsimp only
  cases h1 : d.pushRes (remoteApkPath now f.name) f with
  | error e => exact ⟨_, rfl⟩
  | ok u =>
    cases h2 : d.shellRes ["pm", "install", "-r", remoteApkPath now f.name] with
    | error e => exact ⟨_, rfl⟩
    | ok out =>
      cases h3 : d.shellRes ["rm", "-f", remoteApkPath now f.name] with
      | error e => exact ⟨[], List.append_nil _⟩
      | ok u2 => exact ⟨[], List.append_nil _⟩

lemma installApkFile_ok_trace (d : Device) (now : Nat) (f : BFile)
    (h : (installApkFile true d now f).2 = .ok ()) :
    (installApkFile true d now f).1 = apkOps now f := by
  unfold installApkFile at h ⊢
  rw [if_pos rfl] at h ⊢
  dsimp only at h ⊢
  cases h1 : d.pushRes (remoteApkPath now f.name) f with
  | error e => rw [h1] at h; cases h
  | ok u =>
    rw [h1] at h
    cases h2 : d.shellRes ["pm", "install", "-r", remoteApkPath now f.name] with
    | error e => rw [h2] at h; cases h
    | ok out =>
      rw [h2] at h
      cases h3 : d.shellRes ["rm", "-f", remoteApkPath now f.name] with
      | error e => rw [h3] at h; cases h
      | ok u2 => rfl

lemma pushObbs_trace_prefix (d : Device) (obbDir : String)
    (obbs : List (String × BFile)) :
    (pushObbs d obbDir obbs).1 <+: obbs.map (obbPushOp obbDir) := by
  induction obbs with
  | nil => exact ⟨[], rfl⟩
  | cons pf rest ih =>
    unfold pushObbs
    cases h : d.pushRes (obbDir ++ "/" ++ basename pf.1) pf.2 with
    | error e => exact ⟨_, rfl⟩
    | ok u =>
      dsimp only
      rcases ih with ⟨t, ht⟩
      exact ⟨t, by simp only [List.map_cons, List.cons_append, ht]⟩

lemma resolveObbFiles_fst (m : List (String × BFile)) :
    ∀ (ps : List String) (obbs : List (String × BFile)),
      resolveObbFiles m ps = .ok obbs → obbs.map Prod.fst = ps := by
  intro ps
  induction ps with
  | nil =>
    intro obbs h
    unfold resolveObbFiles at h
    injection h with h'
    subst h'
    rfl
  | cons p rest ih =>
    intro obbs h
    unfold resolveObbFiles at h
    split at h
    · cases h
    · split at h
      · cases h
      · next obbs' hrec =>
        injection h with h'
        subst h'
        simp only [List.map_cons]
        rw [ih obbs' hrec]

/-- C8: when the orchestrator is connected and bundle preparation
resolves, (i) any single install attempt issues its device operations as
a prefix of push-then-install-then-cleanup, in that order; (ii) the
resolved OBB entries follow manifest order; (iii) the bundle trace is the
APK sub-flow's trace followed by OBB-phase operations, where any OBB-phase
activity implies the APK sub-flow completed in full, and the OBB phase is
a prefix of the `mkdir` followed by one push per OBB in manifest order. -/
theorem installBundle_ordering (conn : Bool) (d : Device) (now : Nat)
    (files : List BFile) (info : ManifestInfo) (apkFile : BFile)
    (obbs : List (String × BFile)) (hconn : conn = true)
    (hres : resolveBundle files = .ok (info, apkFile, obbs)) :
    (∀ f : BFile, (installApkFile conn d now f).1 <+: apkOps now f)
    ∧ obbs.map Prod.fst = info.obbPaths
    ∧ ∃ t2,
        (installBundle conn d now files).1 = (installApkFile conn d now apkFile).1 ++ t2
        ∧ (t2 ≠ [] → (installApkFile conn d now apkFile).2 = .ok ()
            ∧ (installApkFile conn d now apkFile).1 = apkOps now apkFile)
        ∧ t2 <+: (DeviceOp.shell ["mkdir", "-p", "/sdcard/Android/obb/" ++ info.packageName]
            :: obbs.map (obbPushOp ("/sdcard/Android/obb/" ++ info.packageName))) := by
  subst hconn
  refine ⟨fun f => installApkFile_trace_prefix d now f, ?_, ?_⟩
  · unfold resolveBundle at hres
    dsimp only at hres
    split at hres
    · cases hres
    · split at hres
      · cases hres
      · split at hres
        · cases hres
        · split at hres
          · cases hres
          · next obbs0 hro =>
            injection hres with h'
            injection h' with ha hbc
            injection hbc with hb hc
            subst ha
            subst hc
            exact resolveObbFiles_fst _ _ _ hro
  · unfold installBundle
    rw [if_pos rfl, hres]
    dsimp only
    cases hr1 : (installApkFile true d now apkFile).2 with
    | error e =>
      refine ⟨[], by rw [List.append_nil], fun hne => absurd rfl hne, List.nil_prefix⟩
    | ok u =>
      cases u
      cases hmk : d.shellRes ["mkdir", "-p", "/sdcard/Android/obb/" ++ info.packageName] with
      | error e =>
        refine ⟨[DeviceOp.shell ["mkdir", "-p", "/sdcard/Android/obb/" ++ info.packageName]],
          rfl, ?_, ⟨_, rfl⟩⟩
        intro _
        exact ⟨rfl, installApkFile_ok_trace d now apkFile hr1⟩
      | ok out =>
        refine ⟨DeviceOp.shell ["mkdir", "-p", "/sdcard/Android/obb/" ++ info.packageName]
            :: (pushObbs d ("/sdcard/Android/obb/" ++ info.packageName) obbs).1, rfl, ?_, ?_⟩
        · intro _
          exact ⟨rfl, installApkFile_ok_trace d now apkFile hr1⟩
        · rcases pushObbs_trace_prefix d ("/sdcard/Android/obb/" ++ info.packageName) obbs with ⟨t, ht⟩
          exact ⟨t, by rw [List.cons_append, ht]⟩

/-- Witness for C8: a concrete `MyGame/` bundle on an all-succeeding
device — the bundle trace is the full APK sub-flow, then `mkdir`, then
the single OBB push. -/
theorem installBundle_ordering_witness :
    (∀ f : BFile, (installApkFile true dOk 0 f).1 <+: apkOps 0 f)
    ∧ ([("main.1.obb", wObb)] : List (String × BFile)).map Prod.fst = ["main.1.obb"]
    ∧ ∃ t2,
        (installBundle true dOk 0 wFiles).1 = (installApkFile true dOk 0 wApk).1 ++ t2
        ∧ (t2 ≠ [] → (installApkFile true dOk 0 wApk).2 = .ok ()
            ∧ (installApkFile true dOk 0 wApk).1 = apkOps 0 wApk)
        ∧ t2 <+: (DeviceOp.shell ["mkdir", "-p", "/sdcard/Android/obb/" ++ "com.example.app"]
            :: ([("main.1.obb", wObb)] : List (String × BFile)).map
              (obbPushOp ("/sdcard/Android/obb/" ++ "com.example.app"))) :=
  installBundle_ordering true dOk 0 wFiles
    { packageName := "com.example.app", versionCode := "42",
      apkPath := "game.apk", obbPaths := ["main.1.obb"] }
    wApk [("main.1.obb", wObb)] rfl (by decide)

/-- C10: when the push succeeded and the remote install command throws,
`installApkFile` stops with exactly push and install in its trace — the
`rm -f` cleanup for the pushed temp path is never issued — and propagates
the error; conversely the cleanup command appears in the trace only when
the install command completed with captured output. -/
theorem installApkFile_install_error (d : Device) (now : Nat) (f : BFile) :
    (∀ e, d.pushRes (remoteApkPath now f.name) f = .ok () →
        d.shellRes ["pm", "install", "-r", remoteApkPath now f.name] = .error e →
        installApkFile true d now f =
          ([DeviceOp.push (remoteApkPath now f.name) f,
            DeviceOp.shell ["pm", "install", "-r", remoteApkPath now f.name]], .error e))
    ∧ (DeviceOp.shell ["rm", "-f", remoteApkPath now f.name] ∈ (installApkFile true d now f).1 →
        ∃ out, d.shellRes ["pm", "install", "-r", remoteApkPath now f.name] = .ok out) := by
  constructor
  · intro e hp hi
    unfold installApkFile
    rw [if_pos rfl]
    dsimp only
    rw [hp, hi]
  · cases hp : d.pushRes (remoteApkPath now f.name) f with
    | error e =>
      intro hmem
      unfold installApkFile at hmem
      rw [if_pos rfl] at hmem
      dsimp only at hmem
      rw [hp] at hmem
      simp at hmem
    | ok u =>
      cases hi : d.shellRes ["pm", "install", "-r", remoteApkPath now f.name] with
      | error e =>
        intro hmem
        unfold installApkFile at hmem
        rw [if_pos rfl] at hmem
        dsimp only at hmem
        rw [hp, hi] at hmem
        dsimp only at hmem
        simp at hmem
      | ok out =>
        intro _
        exact ⟨out, rfl⟩

/-- Witness for C10: a device whose `pm install` throws — the attempt
ends with push and install only; no cleanup command is issued. -/
theorem installApkFile_install_error_witness :
    installApkFile true dInstallFails 0 wApk0 =
      ([DeviceOp.push (remoteApkPath 0 wApk0.name) wApk0,
        DeviceOp.shell ["pm", "install", "-r", remoteApkPath 0 wApk0.name]],
       .error "adb: device offline") :=
  (installApkFile_install_error dInstallFails 0 wApk0).1 "adb: device offline" rfl (by decide)

end WebRoqInstaller
